import Mathlib

/-!
Verification development for the TinyVM stack-based bytecode interpreter
(`src/tinyvm.py`).  The Python source is shallowly embedded: dynamic runtime
values become the inductive `Value`, code objects become `CodeObj`, frames
become the structure `Frame`, and the interpreter's mutable state
(`self.frames`, `self.frame`) together with its diagnostic printing become the
structure `VM` threaded through an explicit, fuel-bounded evaluator.
Host-runtime facilities that the core merely delegates to (the builtin
function table, calls to non-Function host callables, object identity) are
represented by opaque markers or interpreter parameters and are documented at
their definitions.
-/

/-- One decoded instruction, as produced by `dis.get_instructions`: the opcode
name, the numeric argument `arg`, and the resolved argument value `argval`
(used by the interpreter only where it is a name or a comparator string). -/
structure Instr where
  opname : String
  arg : Nat
  argval : String
deriving DecidableEq, Repr

mutual
/-- Runtime values manipulated by the interpreter.  `builtinsTable` stands for
the host's `builtins.__dict__` object, which `run_code` stores into the global
namespace under `"__builtins__"`; its contents live in `VM.builtins`. -/
inductive Value where
  | none
  | bool (b : Bool)
  | int (n : Int)
  | float (q : Rat)
  | str (s : String)
  | list (xs : List Value)
  | tuple (xs : List Value)
  | dict (es : List (Value × Value))
  | code (c : CodeObj)
  | func (f : FuncVal)
  | builtinsTable

/-- A compiled code object: the decoded instruction sequence
(`dis.get_instructions`), `co_consts`, `co_varnames`, and `co_argcount`. -/
inductive CodeObj where
  | mk (instructions : List Instr) (consts : List Value)
       (varnames : List String) (argcount : Nat)

/-- A function value as built by `types.FunctionType(code, globals,
argdefs=defaults, closure=...)`: code object, captured global namespace,
default-argument tuple, and the closure argument (always `None` in the
source, see `MAKE_FUNCTION`). -/
inductive FuncVal where
  | mk (code : CodeObj) (globals : List (String × Value))
       (defaults : List Value) (closure : Value)
end

/-- A namespace mapping names to values (`globals`, `locals`,
`closure_cells`), insertion-ordered like a Python `dict`. -/
abbrev Dict := List (String × Value)

def CodeObj.instructions : CodeObj → List Instr
  | CodeObj.mk i _ _ _ => i

def CodeObj.consts : CodeObj → List Value
  | CodeObj.mk _ c _ _ => c

def CodeObj.varnames : CodeObj → List String
  | CodeObj.mk _ _ v _ => v

def CodeObj.argcount : CodeObj → Nat
  | CodeObj.mk _ _ _ a => a

def FuncVal.code : FuncVal → CodeObj
  | FuncVal.mk c _ _ _ => c

def FuncVal.globals : FuncVal → Dict
  | FuncVal.mk _ g _ _ => g

def FuncVal.defaults : FuncVal → List Value
  | FuncVal.mk _ _ d _ => d

def FuncVal.closure : FuncVal → Value
  | FuncVal.mk _ _ _ c => c

mutual
/-- Structural equality of runtime values, modelling Python `==` on the data
the machine builds.  For function and code objects Python compares by object
identity; the value model uses structural equality as its identity proxy. -/
def vEq : Value → Value → Bool
  | Value.none, Value.none => true
  | Value.bool a, Value.bool b => a == b
  | Value.int a, Value.int b => a == b
  | Value.float a, Value.float b => a == b
  | Value.str a, Value.str b => a == b
  | Value.list as, Value.list bs => vEqList as bs
  | Value.tuple as, Value.tuple bs => vEqList as bs
  | Value.dict as, Value.dict bs => vEqPairs as bs
  | Value.code a, Value.code b => codeEq a b
  | Value.func a, Value.func b => funcEq a b
  | Value.builtinsTable, Value.builtinsTable => true
  | _, _ => false
termination_by structural a => a

def vEqList : List Value → List Value → Bool
  | [], [] => true
  | a :: as, b :: bs => vEq a b && vEqList as bs
  | _, _ => false
termination_by structural a => a

def vEqPairs : List (Value × Value) → List (Value × Value) → Bool
  | [], [] => true
  | (k₁, v₁) :: r₁, (k₂, v₂) :: r₂ => vEq k₁ k₂ && vEq v₁ v₂ && vEqPairs r₁ r₂
  | _, _ => false
termination_by structural a => a

def codeEq : CodeObj → CodeObj → Bool
  | CodeObj.mk i₁ c₁ v₁ a₁, CodeObj.mk i₂ c₂ v₂ a₂ =>
    i₁ == i₂ && vEqList c₁ c₂ && v₁ == v₂ && a₁ == a₂
termination_by structural a => a

def funcEq : FuncVal → FuncVal → Bool
  | FuncVal.mk c₁ g₁ d₁ cl₁, FuncVal.mk c₂ g₂ d₂ cl₂ =>
    codeEq c₁ c₂ && namedEq g₁ g₂ && vEqList d₁ d₂ && vEq cl₁ cl₂
termination_by structural a => a

def namedEq : List (String × Value) → List (String × Value) → Bool
  | [], [] => true
  | (k₁, v₁) :: r₁, (k₂, v₂) :: r₂ => k₁ == k₂ && vEq v₁ v₂ && namedEq r₁ r₂
  | _, _ => false
termination_by structural a => a
end

/-- Python `str.startswith`, spelt out over the character lists so that it
evaluates inside the kernel. -/
def charsPrefix : List Char → List Char → Bool
  | [], _ => true
  | _ :: _, [] => false
  | c :: cs, d :: ds => c == d && charsPrefix cs ds

def strStartsWith (s p : String) : Bool :=
  charsPrefix p.data s.data

/-- Python dict lookup by string key (`d[k]` and `k in d`). -/
def dictGet? : Dict → String → Option Value
  | [], _ => Option.none
  | (k₁, v₁) :: rest, k => if k₁ = k then some v₁ else dictGet? rest k

def dictContains (d : Dict) (k : String) : Bool :=
  (dictGet? d k).isSome

/-- Python dict assignment `d[k] = v`: replaces the value at an existing key
in place (preserving position), otherwise appends a new entry. -/
def dictSet : Dict → String → Value → Dict
  | [], k, v => [(k, v)]
  | (k₁, v₁) :: rest, k, v =>
    if k₁ = k then (k₁, v) :: rest else (k₁, v₁) :: dictSet rest k v

/-- Value-keyed dict lookup, for mappings built by `BUILD_MAP`. -/
def vdictGet? : List (Value × Value) → Value → Option Value
  | [], _ => Option.none
  | (k₁, v₁) :: rest, k => if vEq k₁ k then some v₁ else vdictGet? rest k
termination_by structural d => d

/-- Value-keyed dict assignment `d[key] = value` (Python keeps the original
key object and position when the key is already present). -/
def vdictSet : List (Value × Value) → Value → Value → List (Value × Value)
  | [], k, v => [(k, v)]
  | (k₁, v₁) :: rest, k, v =>
    if vEq k₁ k then (k₁, v) :: rest else (k₁, v₁) :: vdictSet rest k v
termination_by structural d => d

/-- Python truthiness, as consumed by `POP_JUMP_IF_FALSE/TRUE`. -/
def truthy : Value → Bool
  | Value.none => false
  | Value.bool b => b
  | Value.int n => n != 0
  | Value.float q => q != 0
  | Value.str s => s.length != 0
  | Value.list xs => !xs.isEmpty
  | Value.tuple xs => !xs.isEmpty
  | Value.dict es => !es.isEmpty
  | Value.code _ => true
  | Value.func _ => true
  | Value.builtinsTable => true

/-- The two fatal error kinds the interpreter raises itself (`NameError`,
`NotImplementedError`) together with the host-level errors its value
operations can surface (`TypeError`, `IndexError`, `ZeroDivisionError`). -/
inductive VMError where
  | nameError (msg : String)
  | notImplementedError (msg : String)
  | typeError (msg : String)
  | indexError (msg : String)
  | zeroDivisionError
deriving DecidableEq, Repr

/-- The message `str(e)` of an exception, as interpolated by the
`[TinyVM Exception]` diagnostic print. -/
def excMsg : VMError → String
  | VMError.nameError m => m
  | VMError.notImplementedError m => m
  | VMError.typeError m => m
  | VMError.indexError m => m
  | VMError.zeroDivisionError => "division by zero"

/-- Numeric view of a value for arithmetic: Python `bool` is an `int`. -/
def intOf? : Value → Option Int
  | Value.int n => some n
  | Value.bool b => some (if b then 1 else 0)
  | _ => Option.none

/-- Rational view of a value (ints, bools and floats); floats are idealised
as exact rationals. -/
def ratOf? : Value → Option Rat
  | Value.int n => some (n : Rat)
  | Value.bool b => some (if b then 1 else 0)
  | Value.float q => some q
  | _ => Option.none

/-- Host `a + b`, for the value kinds the machine builds. -/
def vAdd (a b : Value) : Except VMError Value :=
  match a, b with
  | Value.str s₁, Value.str s₂ => Except.ok (Value.str (s₁ ++ s₂))
  | Value.list x, Value.list y => Except.ok (Value.list (x ++ y))
  | Value.tuple x, Value.tuple y => Except.ok (Value.tuple (x ++ y))
  | _, _ =>
    match intOf? a, intOf? b with
    | some m, some n => Except.ok (Value.int (m + n))
    | _, _ =>
      match ratOf? a, ratOf? b with
      | some p, some q => Except.ok (Value.float (p + q))
      | _, _ => Except.error (VMError.typeError "unsupported operand type(s) for +")

/-- Host `a - b`. -/
def vSub (a b : Value) : Except VMError Value :=
  match intOf? a, intOf? b with
  | some m, some n => Except.ok (Value.int (m - n))
  | _, _ =>
    match ratOf? a, ratOf? b with
    | some p, some q => Except.ok (Value.float (p - q))
    | _, _ => Except.error (VMError.typeError "unsupported operand type(s) for -")

/-- Host `a * b`. -/
def vMul (a b : Value) : Except VMError Value :=
  match intOf? a, intOf? b with
  | some m, some n => Except.ok (Value.int (m * n))
  | _, _ =>
    match ratOf? a, ratOf? b with
    | some p, some q => Except.ok (Value.float (p * q))
    | _, _ => Except.error (VMError.typeError "unsupported operand type(s) for *")

/-- Host `a / b` (true division; the float result is idealised as a
rational). -/
def vDiv (a b : Value) : Except VMError Value :=
  match ratOf? a, ratOf? b with
  | some p, some q =>
    if q = 0 then Except.error VMError.zeroDivisionError
    else Except.ok (Value.float (p / q))
  | _, _ => Except.error (VMError.typeError "unsupported operand type(s) for /")

/-- Host ordering comparisons, for ints, bools, floats and strings. -/
def vCmp (onStr : String → String → Bool) (onRat : Rat → Rat → Bool)
    (a b : Value) : Except VMError Value :=
  match a, b with
  | Value.str s₁, Value.str s₂ => Except.ok (Value.bool (onStr s₁ s₂))
  | _, _ =>
    match ratOf? a, ratOf? b with
    | some p, some q => Except.ok (Value.bool (onRat p q))
    | _, _ => Except.error (VMError.typeError "unsupported comparison")

/-- The `COMPARE_OP` dispatch over the comparator string `argval`: the six
supported comparators, anything else a `NotImplementedError` (source lines
128-138). -/
def vCompare (op : String) (a b : Value) : Except VMError Value :=
  if op = "==" then Except.ok (Value.bool (vEq a b))
  else if op = "!=" then Except.ok (Value.bool (!vEq a b))
  else if op = "<" then vCmp (fun s t => decide (s < t)) (fun p q => decide (p < q)) a b
  else if op = "<=" then vCmp (fun s t => decide (s ≤ t)) (fun p q => decide (p ≤ q)) a b
  else if op = ">" then vCmp (fun s t => decide (s > t)) (fun p q => decide (p > q)) a b
  else if op = ">=" then vCmp (fun s t => decide (s ≥ t)) (fun p q => decide (p ≥ q)) a b
  else Except.error (VMError.notImplementedError ("COMPARE_OP " ++ op ++ " not implemented"))

/-- The `BUILD_MAP` loop (source lines 156-160): `instr.arg` times, pop a
value, then a key, and store `d[key] = value`.  Returns the built mapping and
the remaining stack. -/
def buildMapLoop : Nat → List Value → List (Value × Value) →
    Except VMError (List (Value × Value) × List Value)
  | 0, stack, d => Except.ok (d, stack)
  | n + 1, value :: key :: rest, d => buildMapLoop n rest (vdictSet d key value)
  | _ + 1, _, _ => Except.error (VMError.indexError "pop from empty list")
termination_by structural n => n

/-- View a popped `kw_names` value as a tuple of strings (the form the
compiler pushes for `CALL_FUNCTION_KW`). -/
def strList : List Value → Option (List String)
  | [] => some []
  | Value.str s :: rest => (strList rest).map (fun l => s :: l)
  | _ => Option.none

def tupleStrings : Value → Option (List String)
  | Value.tuple vs => strList vs
  | _ => Option.none

/-- Mutable execution state of one activation (class `Frame`). -/
structure Frame where
  code_obj : CodeObj
  globals : Dict
  locals : Dict
  stack : List Value
  last_instruction : Nat
  block_stack : List Value
  closure_cells : Dict

/-- `Frame.__init__`: absent namespaces default to empty; `closure_cells`
also defaults to empty when falsy. -/
def Frame.init (code_obj : CodeObj) (globals locals closure_cells : Option Dict) : Frame :=
  { code_obj := code_obj
    globals := globals.getD []
    locals := locals.getD []
    stack := []
    last_instruction := 0
    block_stack := []
    closure_cells :=
      match closure_cells with
      | some cc => if cc.isEmpty then [] else cc
      | Option.none => [] }

/-- Interpreter state (class `TinyVM`): the call stack `frames` and the
current-frame pointer `frame`.  Two modelling fields: `log` captures the
stdout prints of `run_code`'s exception handler, and `builtins` is the
host-supplied `builtins.__dict__` table consulted by `LOAD_GLOBAL`. -/
structure VM where
  frames : List Frame
  frame : Option Frame
  log : List String
  builtins : Dict

/-- `TinyVM.__init__` with a given host builtins table. -/
def newVM (builtins : Dict) : VM :=
  { frames := [], frame := Option.none, log := [], builtins := builtins }

/-- `run_code` lines 40-43: ensure the global namespace holds a
`__builtins__` entry. -/
def ensureBuiltins (g : Dict) : Dict :=
  if dictContains g "__builtins__" then g
  else dictSet g "__builtins__" Value.builtinsTable

/-- The fresh frame `run_code` constructs (source line 44). -/
def runCodeFrame (code : CodeObj) (g l cc : Option Dict) : Frame :=
  Frame.init code (some (ensureBuiltins (g.getD []))) l cc

/-- `run_code` lines 45-46: append the frame and make it current. -/
def pushFrame (vm : VM) (f : Frame) : VM :=
  { vm with frames := vm.frames ++ [f], frame := some f }

/-- The positional-binding loop shared by both call opcodes
(`for i, val in enumerate(args): local_ns[arg_names[i]] = val`,
source lines 173-174 and 198-199). -/
def bindLoop (argNames : List String) : List Value → Nat → Dict → Except VMError Dict
  | [], _, ns => Except.ok ns
  | v :: vs, i, ns =>
    match argNames[i]? with
    | some nm => bindLoop argNames vs (i + 1) (dictSet ns nm v)
    | Option.none => Except.error (VMError.indexError "tuple index out of range")

/-- The default-fill loop body iterated for `k` positions starting at
parameter index `i` (`default_index = i - (code.co_argcount - len(defaults))`;
bind when `0 <= default_index < len(defaults)`, source lines 175-178 and
203-206). -/
def fillRange (argNames : List String) (argcount : Nat) (defaults : List Value) :
    Nat → Nat → Dict → Except VMError Dict
  | 0, _, ns => Except.ok ns
  | k + 1, i, ns =>
    let di : Int := (i : Int) - ((argcount : Int) - (defaults.length : Int))
    if 0 ≤ di ∧ di < (defaults.length : Int) then
      match argNames[i]?, defaults[di.toNat]? with
      | some nm, some dv =>
        fillRange argNames argcount defaults k (i + 1) (dictSet ns nm dv)
      | _, _ => Except.error (VMError.indexError "list index out of range")
    else fillRange argNames argcount defaults k (i + 1) ns

/-- `for i in range(start, code.co_argcount): ...` default-fill loop. -/
def fillDefaults (argNames : List String) (argcount : Nat) (defaults : List Value)
    (start : Nat) (ns : Dict) : Except VMError Dict :=
  fillRange argNames argcount defaults (argcount - start) start ns

/-- The callee local namespace built by `CALL_FUNCTION` (source lines
170-178): bind positional arguments to leading parameter names, then fill
remaining parameters from the right-aligned defaults. -/
def callFunctionLocals (code : CodeObj) (defaults : List Value)
    (args : List Value) : Except VMError Dict :=
  let argNames := code.varnames.take code.argcount
  match bindLoop argNames args 0 [] with
  | Except.error e => Except.error e
  | Except.ok ns => fillDefaults argNames code.argcount defaults args.length ns

/-- The namespace after the positional and keyword binding stages of
`CALL_FUNCTION_KW` (source lines 196-201): positional values bound in order,
then each `kwargs` item bound by name. -/
def kwBoundLocals (code : CodeObj) (positional : List Value)
    (kwargs : List (String × Value)) : Except VMError Dict :=
  let argNames := code.varnames.take code.argcount
  match bindLoop argNames positional 0 [] with
  | Except.error e => Except.error e
  | Except.ok ns => Except.ok (kwargs.foldl (fun d p => dictSet d p.1 p.2) ns)

/-- The callee local namespace built by `CALL_FUNCTION_KW` (source lines
196-206): after positional and keyword binding, the default-fill loop starts
at `filled_count = len(local_ns)`. -/
def callFunctionKWLocals (code : CodeObj) (defaults : List Value)
    (positional : List Value) (kwargs : List (String × Value)) : Except VMError Dict :=
  match kwBoundLocals code positional kwargs with
  | Except.error e => Except.error e
  | Except.ok ns =>
    fillDefaults (code.varnames.take code.argcount) code.argcount defaults ns.length ns

/-- Follows the specification's words, not the source: fill only parameters
that are STILL UNBOUND, starting from the count of already-bound names, with
the same right-alignment rule.  Used to compare the specified and the
implemented `CALL_FUNCTION_KW` behavior. -/
def fillRangeSpec (argNames : List String) (argcount : Nat) (defaults : List Value) :
    Nat → Nat → Dict → Except VMError Dict
  | 0, _, ns => Except.ok ns
  | k + 1, i, ns =>
    let di : Int := (i : Int) - ((argcount : Int) - (defaults.length : Int))
    if 0 ≤ di ∧ di < (defaults.length : Int) then
      match argNames[i]?, defaults[di.toNat]? with
      | some nm, some dv =>
        if dictContains ns nm then fillRangeSpec argNames argcount defaults k (i + 1) ns
        else fillRangeSpec argNames argcount defaults k (i + 1) (dictSet ns nm dv)
      | _, _ => Except.error (VMError.indexError "list index out of range")
    else fillRangeSpec argNames argcount defaults k (i + 1) ns

/-- Follows the specification's words: the keyword-call namespace in which
defaults fill only still-unbound parameters. -/
def callFunctionKWLocalsSpec (code : CodeObj) (defaults : List Value)
    (positional : List Value) (kwargs : List (String × Value)) : Except VMError Dict :=
  match kwBoundLocals code positional kwargs with
  | Except.error e => Except.error e
  | Except.ok ns =>
    fillRangeSpec (code.varnames.take code.argcount) code.argcount defaults
      (code.argcount - ns.length) ns.length ns

/-- Outcome of one dispatched non-call instruction: continue the loop at a
new instruction pointer with an updated frame, return from the frame, or
raise a fatal error. -/
inductive StepRes where
  | next (frame : Frame) (ip : Nat)
  | ret (v : Value)
  | err (e : VMError)

/-- The generic bottom of the dispatch loop (source lines 219-220):
`ip += 1; frame.last_instruction = ip`, here with the already-computed new
pointer. -/
def advance (frame : Frame) (ip' : Nat) : StepRes :=
  StepRes.next { frame with last_instruction := ip' } ip'

/-- One step of `run_frame`'s dispatch chain for every opcode that does not
perform a call (source lines 65-161 and 212-217).  Branches appear in source
order; the `RESUME`/`CACHE`/`KW_NAMES`/`MAKE_FUNCTION` branches `continue`
without updating `last_instruction`, every other branch falls through to
`advance`.  `POP_JUMP_IF_FALSE/TRUE` sets `ip = instr.arg - 1` and then the
generic advance adds one, which this embedding folds into setting the pointer
directly to `instr.arg`. -/
def execInstr (builtins : Dict) (frame : Frame) (ip : Nat) (instr : Instr) : StepRes :=
  let opname := instr.opname
  let argval := instr.argval
  if opname = "RESUME" ∨ opname = "CACHE" then
    StepRes.next frame (ip + 1)
  else if opname = "RETURN_CONST" then
    match frame.code_obj.consts[instr.arg]? with
    | some v => StepRes.ret v
    | Option.none => StepRes.err (VMError.indexError "tuple index out of range")
  else if opname = "KW_NAMES" then
    StepRes.next frame (ip + 1)
  else if opname = "MAKE_FUNCTION" then
    -- pop the code object, then defaults (or `()` when the stack is
    -- exhausted), then closure cells (or `{}`); the popped closure value is
    -- passed as `closure=None`, i.e. discarded.
    match frame.stack with
    | [] => StepRes.err (VMError.indexError "pop from empty list")
    | codeV :: s₁ =>
      let dpop : Value × List Value :=
        match s₁ with
        | [] => (Value.tuple [], [])
        | d :: s₂ => (d, s₂)
      let cpop : Value × List Value :=
        match dpop.2 with
        | [] => (Value.dict [], [])
        | c :: s₃ => (c, s₃)
      match codeV, dpop.1 with
      | Value.code c, Value.tuple ds =>
        StepRes.next
          { frame with stack :=
              Value.func (FuncVal.mk c frame.globals ds Value.none) :: cpop.2 }
          (ip + 1)
      | _, _ => StepRes.err (VMError.typeError "expected code object and defaults tuple")
  else if opname = "LOAD_CONST" then
    match frame.code_obj.consts[instr.arg]? with
    | some v => advance { frame with stack := v :: frame.stack } (ip + 1)
    | Option.none => StepRes.err (VMError.indexError "tuple index out of range")
  else if opname = "LOAD_FAST" then
    match frame.code_obj.varnames[instr.arg]? with
    | some varname =>
      match dictGet? frame.locals varname with
      | some v => advance { frame with stack := v :: frame.stack } (ip + 1)
      | Option.none =>
        StepRes.err (VMError.nameError ("name '" ++ varname ++ "' is not defined"))
    | Option.none => StepRes.err (VMError.indexError "tuple index out of range")
  else if opname = "STORE_FAST" then
    match frame.code_obj.varnames[instr.arg]? with
    | some varname =>
      match frame.stack with
      | v :: rest =>
        advance { frame with locals := dictSet frame.locals varname v, stack := rest } (ip + 1)
      | [] => StepRes.err (VMError.indexError "pop from empty list")
    | Option.none => StepRes.err (VMError.indexError "tuple index out of range")
  else if opname = "LOAD_GLOBAL" then
    match dictGet? frame.globals argval with
    | some v => advance { frame with stack := v :: frame.stack } (ip + 1)
    | Option.none =>
      match dictGet? builtins argval with
      | some v => advance { frame with stack := v :: frame.stack } (ip + 1)
      | Option.none =>
        StepRes.err (VMError.nameError ("name '" ++ argval ++ "' is not defined"))
  else if opname = "STORE_GLOBAL" then
    match frame.stack with
    | v :: rest =>
      advance { frame with globals := dictSet frame.globals argval v, stack := rest } (ip + 1)
    | [] => StepRes.err (VMError.indexError "pop from empty list")
  else if opname = "LOAD_DEREF" then
    match dictGet? frame.closure_cells argval with
    | some v => advance { frame with stack := v :: frame.stack } (ip + 1)
    | Option.none =>
      StepRes.err (VMError.nameError ("nonlocal '" ++ argval ++ "' is not defined"))
  else if opname = "STORE_DEREF" then
    match frame.stack with
    | v :: rest =>
      advance { frame with closure_cells := dictSet frame.closure_cells argval v, stack := rest } (ip + 1)
    | [] => StepRes.err (VMError.indexError "pop from empty list")
  else if strStartsWith opname "BINARY_" then
    match frame.stack with
    | b :: a :: rest =>
      let res : Except VMError Value :=
        if opname = "BINARY_ADD" then vAdd a b
        else if opname = "BINARY_SUBTRACT" then vSub a b
        else if opname = "BINARY_MULTIPLY" then vMul a b
        else if opname = "BINARY_TRUE_DIVIDE" then vDiv a b
        else Except.error (VMError.notImplementedError ("Unsupported binary op: " ++ opname))
      match res with
      | Except.ok v => advance { frame with stack := v :: rest } (ip + 1)
      | Except.error e => StepRes.err e
    | _ => StepRes.err (VMError.indexError "pop from empty list")
  else if opname = "COMPARE_OP" then
    match frame.stack with
    | b :: a :: rest =>
      match vCompare argval a b with
      | Except.ok v => advance { frame with stack := v :: rest } (ip + 1)
      | Except.error e => StepRes.err e
    | _ => StepRes.err (VMError.indexError "pop from empty list")
  else if opname = "POP_JUMP_IF_FALSE" ∨ opname = "POP_JUMP_IF_TRUE" then
    match frame.stack with
    | value :: rest =>
      if (opname = "POP_JUMP_IF_FALSE" ∧ truthy value = false) ∨
         (opname = "POP_JUMP_IF_TRUE" ∧ truthy value = true) then
        advance { frame with stack := rest } instr.arg
      else
        advance { frame with stack := rest } (ip + 1)
    | [] => StepRes.err (VMError.indexError "pop from empty list")
  else if opname = "JUMP_FORWARD" then
    advance frame (ip + instr.arg + 1)
  else if opname = "FOR_ITER" then
    StepRes.err (VMError.notImplementedError "FOR_ITER loop not implemented yet")
  else if opname = "BUILD_LIST" then
    if instr.arg ≤ frame.stack.length then
      let built := Value.list ((frame.stack.take instr.arg).reverse)
      advance { frame with stack := built :: frame.stack.drop instr.arg } (ip + 1)
    else StepRes.err (VMError.indexError "pop from empty list")
  else if opname = "BUILD_TUPLE" then
    if instr.arg ≤ frame.stack.length then
      let built := Value.tuple ((frame.stack.take instr.arg).reverse)
      advance { frame with stack := built :: frame.stack.drop instr.arg } (ip + 1)
    else StepRes.err (VMError.indexError "pop from empty list")
  else if opname = "BUILD_MAP" then
    match buildMapLoop instr.arg frame.stack [] with
    | Except.ok (d, rest) =>
      advance { frame with stack := Value.dict d :: rest } (ip + 1)
    | Except.error e => StepRes.err e
  else if opname = "RETURN_VALUE" then
    match frame.stack with
    | v :: _ => StepRes.ret v
    | [] => StepRes.ret Value.none
  else
    StepRes.err (VMError.notImplementedError ("Unsupported instruction: " ++ opname))

/-- The `while ip < len(instructions)` loop of `run_frame`, parameterised by
the procedure `runC` used to execute nested calls (`self.run_code`) and
bounded by loop fuel.  The two call opcodes are handled here because they
thread the interpreter state; every other opcode goes through `execInstr`.
Falling off the end of the instruction list returns `None`, as in Python.
Calls to values that are not Function Values delegate to arbitrary host
callables and are outside this embedding; they are represented as a
`TypeError`. -/
def runFrameLoopAux
    (runC : VM → CodeObj → Option Dict → Option Dict → Option Dict →
            Option (VM × Except VMError Value)) :
    Nat → VM → Frame → Nat → Option (VM × Except VMError Value)
  | 0, _, _, _ => Option.none
  | fuel + 1, vm, frame, ip =>
    match frame.code_obj.instructions[ip]? with
    | Option.none => some (vm, Except.ok Value.none)
    | some instr =>
      if instr.opname = "CALL_FUNCTION" then
        -- pop `arg_count` argument values (restoring push order), then the
        -- callable (source lines 165-167)
        let n := instr.arg
        match frame.stack[n]? with
        | Option.none => some (vm, Except.error (VMError.indexError "pop from empty list"))
        | some funcV =>
          let args := (frame.stack.take n).reverse
          let rest := frame.stack.drop (n + 1)
          match funcV with
          | Value.func f =>
            match callFunctionLocals f.code f.defaults args with
            | Except.error e => some (vm, Except.error e)
            | Except.ok locals =>
              match runC vm f.code (some f.globals) (some locals) Option.none with
              | Option.none => Option.none
              | some (vm', Except.error e) => some (vm', Except.error e)
              | some (vm', Except.ok v) =>
                runFrameLoopAux runC fuel vm'
                  { frame with stack := v :: rest, last_instruction := ip + 1 } (ip + 1)
          | _ => some (vm, Except.error (VMError.typeError "object is not callable"))
      else if instr.opname = "CALL_FUNCTION_KW" then
        -- pop the keyword-name tuple, then `instr.arg` values, then the
        -- callable; split the values into positional and keyword portions
        -- (source lines 185-192)
        match frame.stack with
        | [] => some (vm, Except.error (VMError.indexError "pop from empty list"))
        | kwNamesV :: s₁ =>
          let total := instr.arg
          match s₁[total]? with
          | Option.none => some (vm, Except.error (VMError.indexError "pop from empty list"))
          | some funcV =>
            let args_and_kw := (s₁.take total).reverse
            let rest := s₁.drop (total + 1)
            match tupleStrings kwNamesV with
            | Option.none => some (vm, Except.error (VMError.typeError "kw_names has no len"))
            | some kwNames =>
              let kwCount := kwNames.length
              let positional := args_and_kw.take (total - kwCount)
              let kwValues := args_and_kw.drop (total - kwCount)
              let kwargs := (kwNames.zip kwValues).foldl (fun d p => dictSet d p.1 p.2) []
              match funcV with
              | Value.func f =>
                match callFunctionKWLocals f.code f.defaults positional kwargs with
                | Except.error e => some (vm, Except.error e)
                | Except.ok locals =>
                  match runC vm f.code (some f.globals) (some locals) Option.none with
                  | Option.none => Option.none
                  | some (vm', Except.error e) => some (vm', Except.error e)
                  | some (vm', Except.ok v) =>
                    runFrameLoopAux runC fuel vm'
                      { frame with stack := v :: rest, last_instruction := ip + 1 } (ip + 1)
              | _ => some (vm, Except.error (VMError.typeError "object is not callable"))
      else
        match execInstr vm.builtins frame ip instr with
        | StepRes.next frame' ip' => runFrameLoopAux runC fuel vm frame' ip'
        | StepRes.ret v => some (vm, Except.ok v)
        | StepRes.err e => some (vm, Except.error e)
termination_by structural fuel => fuel

/-- `TinyVM.run_code` (source lines 36-54): construct a frame over the given
namespaces, push it and make it current, run it; on success pop the frame
and restore the previous one as current, on an exception print the
`[TinyVM Exception]` diagnostic (modelled as appending to `VM.log`) and
re-raise.  Fuel bounds both recursion depth and loop steps; `Option.none`
means fuel ran out. -/
def runCode : Nat → VM → CodeObj → Option Dict → Option Dict → Option Dict →
    Option (VM × Except VMError Value)
  | 0, _, _, _, _, _ => Option.none
  | fuel + 1, vm, code, g, l, cc =>
    let frame := runCodeFrame code g l cc
    match runFrameLoopAux (runCode fuel) fuel (pushFrame vm frame) frame
        frame.last_instruction with
    | Option.none => Option.none
    | some (vm₂, Except.error e) =>
      some ({ vm₂ with log := vm₂.log ++ ["[TinyVM Exception]: " ++ excMsg e] },
            Except.error e)
    | some (vm₂, Except.ok v) =>
      some ({ vm₂ with frames := vm₂.frames.dropLast, frame := vm₂.frames.dropLast.getLast? },
            Except.ok v)
termination_by structural fuel => fuel

/-- `TinyVM.run_frame` at a given fuel: run the dispatch loop from
`frame.last_instruction`, executing nested calls with `runCode`. -/
def runFrame (fuel : Nat) (vm : VM) (frame : Frame) :
    Option (VM × Except VMError Value) :=
  runFrameLoopAux (runCode fuel) fuel vm frame frame.last_instruction

/-- Extract the error message of a failed result, for stating concrete
evaluations. -/
def errMsg? : Except VMError Value → Option String
  | Except.error e => some (excMsg e)
  | Except.ok _ => Option.none

/-- A fresh interpreter with an empty host builtins table (the embedded
programs below consult no builtins). -/
def vm0 : VM := newVM []

/-- A unit whose single instruction is the unsupported iteration opcode. -/
def failCode : CodeObj :=
  CodeObj.mk [Instr.mk "FOR_ITER" 0 ""] [] [] 0

/-- A unit that calls a function value whose body is `failCode`, so the
fatal error arises one call level down. -/
def nestedOuterCode : CodeObj :=
  CodeObj.mk
    [Instr.mk "LOAD_CONST" 0 "", Instr.mk "CALL_FUNCTION" 0 "", Instr.mk "RETURN_VALUE" 0 ""]
    [Value.func (FuncVal.mk failCode [] [] Value.none)] [] 0

/-- A unit that pushes the pairs `1: 10` and then `1: 20` (key before value,
so the duplicate key `1` has `10` as its first-pushed and `20` as its
last-pushed value) and builds a mapping from them. -/
def dupKeyMapCode : CodeObj :=
  CodeObj.mk
    [Instr.mk "LOAD_CONST" 0 "", Instr.mk "LOAD_CONST" 1 "",
     Instr.mk "LOAD_CONST" 0 "", Instr.mk "LOAD_CONST" 2 "",
     Instr.mk "BUILD_MAP" 2 "", Instr.mk "RETURN_VALUE" 0 ""]
    [Value.int 1, Value.int 10, Value.int 20] [] 0

/-- The code object of `f(x, y=1)`, as far as argument binding is concerned. -/
def fxyCode : CodeObj := CodeObj.mk [] [] ["x", "y"] 2

/-- A three-parameter code object `f(a, b=10, c=20)` for exercising the
keyword-call default fill. -/
def abcCode : CodeObj := CodeObj.mk [] [] ["a", "b", "c"] 3

/-- A three-parameter code object `f(x, y=1, z=2)` (claim C10's example). -/
def xyzCode : CodeObj := CodeObj.mk [] [] ["x", "y", "z"] 3

/-- The opcode names `run_frame` recognises by exact match (the
`BINARY_`-prefixed family is recognised by prefix instead). -/
def handledOpnames : List String :=
  ["RESUME", "CACHE", "RETURN_CONST", "KW_NAMES", "MAKE_FUNCTION", "LOAD_CONST",
   "LOAD_FAST", "STORE_FAST", "LOAD_GLOBAL", "STORE_GLOBAL", "LOAD_DEREF",
   "STORE_DEREF", "COMPARE_OP", "POP_JUMP_IF_FALSE", "POP_JUMP_IF_TRUE",
   "JUMP_FORWARD", "FOR_ITER", "BUILD_LIST", "BUILD_TUPLE", "BUILD_MAP",
   "CALL_FUNCTION", "CALL_FUNCTION_KW", "RETURN_VALUE"]

/-- A frame over `code` with empty namespaces and a given operand stack, for
concrete executions. -/
def testFrame (code : CodeObj) (stack : List Value) : Frame :=
  { code_obj := code, globals := [], locals := [], stack := stack,
    last_instruction := 0, block_stack := [], closure_cells := [] }

/-- A unit with a single conditional jump whose target is instruction
index 3. -/
def jumpDemoCode : CodeObj :=
  CodeObj.mk [Instr.mk "POP_JUMP_IF_FALSE" 3 ""] [] [] 0

/-- A unit with a single `BUILD_LIST 3` instruction. -/
def buildDemoCode : CodeObj :=
  CodeObj.mk [Instr.mk "BUILD_LIST" 3 ""] [] [] 0

/-- A unit with a single `BUILD_TUPLE 3` instruction. -/
def buildTupleDemoCode : CodeObj :=
  CodeObj.mk [Instr.mk "BUILD_TUPLE" 3 ""] [] [] 0

/-- A unit with a single unrecognised opcode. -/
def bogusDemoCode : CodeObj :=
  CodeObj.mk [Instr.mk "UNARY_NEGATIVE" 0 ""] [] [] 0

/-- A unit with a single `MAKE_FUNCTION` instruction. -/
def makeFunDemoCode : CodeObj :=
  CodeObj.mk [Instr.mk "MAKE_FUNCTION" 0 ""] [] [] 0

/-- A unit with a single unsupported binary-arithmetic variant. -/
def binDemoCode : CodeObj :=
  CodeObj.mk [Instr.mk "BINARY_MODULO" 0 ""] [] [] 0

/-- A unit with a single `COMPARE_OP` on an unsupported comparator. -/
def cmpDemoCode : CodeObj :=
  CodeObj.mk [Instr.mk "COMPARE_OP" 0 "is"] [] [] 0

/-- The error raised by the unimplemented iteration opcode. -/
def forIterError : VMError :=
  VMError.notImplementedError "FOR_ITER loop not implemented yet"

/-- The frame `run_code` builds for `failCode` with no namespaces supplied. -/
def failFrame : Frame :=
  runCodeFrame failCode Option.none Option.none Option.none

/-- The interpreter state after `run_code` fails on `failCode` starting from
a fresh interpreter: the failed frame is still on the call stack and still
current, and the diagnostic was logged. -/
def vmAfterFail : VM :=
  { frames := [failFrame], frame := some failFrame,
    log := ["[TinyVM Exception]: FOR_ITER loop not implemented yet"], builtins := [] }

/-- A unit with a single `LOAD_FAST` of the never-assigned local `q`. -/
def loadFastDemoCode : CodeObj :=
  CodeObj.mk [Instr.mk "LOAD_FAST" 0 ""] [] ["q"] 0

/-- The type of the nested-call executor threaded through the dispatch loop
(the shape of `self.run_code` at a fixed fuel). -/
abbrev RunC :=
  VM → CodeObj → Option Dict → Option Dict → Option Dict →
    Option (VM × Except VMError Value)

/-- The call-stack bookkeeping contract relating the interpreter state
before and after running a frame or a unit: the prior frames are preserved
as a prefix; on a normal return the frames list is restored exactly and the
current-frame pointer is the last prior frame; on an error the current-frame
pointer still refers to the innermost (unpopped) frame, the last entry of
the frames list. -/
def framesInv (vm vm' : VM) (r : Except VMError Value) : Prop :=
  (∃ tail, vm'.frames = vm.frames ++ tail) ∧
  (∀ v, r = Except.ok v → vm'.frames = vm.frames ∧ vm'.frame = vm.frames.getLast?) ∧
  (∀ e, r = Except.error e → vm'.frame = vm'.frames.getLast?)

/-- C5: a conditional-transfer instruction pops exactly one value; when the
opcode's condition holds for it the instruction pointer becomes the
jump-target operand (the source's `ip = instr.arg - 1` followed by the
generic `ip += 1`), otherwise execution falls through to the next
instruction. -/
theorem pop_jump_pops_and_sets_target (runC : RunC) (fuel : Nat) (vm : VM)
    (frame : Frame) (ip : Nat) (instr : Instr) (v : Value) (rest : List Value)
    (hi : frame.code_obj.instructions[ip]? = some instr)
    (hop : instr.opname = "POP_JUMP_IF_FALSE" ∨ instr.opname = "POP_JUMP_IF_TRUE")
    (hs : frame.stack = v :: rest) :
    runFrameLoopAux runC (fuel + 1) vm frame ip =
      (if (instr.opname = "POP_JUMP_IF_FALSE" ∧ truthy v = false) ∨
          (instr.opname = "POP_JUMP_IF_TRUE" ∧ truthy v = true) then
        runFrameLoopAux runC fuel vm
          { frame with stack := rest, last_instruction := instr.arg } instr.arg
      else
        runFrameLoopAux runC fuel vm
          { frame with stack := rest, last_instruction := ip + 1 } (ip + 1)) := by
  rcases hop with h | h <;>
    simp [runFrameLoopAux, execInstr, hi, hs, h, advance, strStartsWith, charsPrefix] <;>
    by_cases ht : truthy v <;> simp [ht]

/-- Witness for C5: a false value fed to `POP_JUMP_IF_FALSE` with target 3
transfers control to instruction index 3 (and a true value falls through to
index 1). -/
theorem pop_jump_pops_and_sets_target_witness :
    (runFrameLoopAux (runCode 0) 1 vm0 (testFrame jumpDemoCode [Value.bool false]) 0 =
      runFrameLoopAux (runCode 0) 0 vm0
        { testFrame jumpDemoCode [] with last_instruction := 3 } 3) ∧
    (runFrameLoopAux (runCode 0) 1 vm0 (testFrame jumpDemoCode [Value.bool true]) 0 =
      runFrameLoopAux (runCode 0) 0 vm0
        { testFrame jumpDemoCode [] with last_instruction := 1 } 1) := by
  constructor
  · have h := pop_jump_pops_and_sets_target (runCode 0) 0 vm0
      (testFrame jumpDemoCode [Value.bool false]) 0 (Instr.mk "POP_JUMP_IF_FALSE" 3 "")
      (Value.bool false) [] rfl (Or.inl rfl) rfl
    simpa [truthy] using h
  · have h := pop_jump_pops_and_sets_target (runCode 0) 0 vm0
      (testFrame jumpDemoCode [Value.bool true]) 0 (Instr.mk "POP_JUMP_IF_FALSE" 3 "")
      (Value.bool true) [] rfl (Or.inl rfl) rfl
    simpa [truthy] using h

/-- C6: `BUILD_LIST n` on a stack holding the pushed values `vs` (last
pushed on top) pops exactly those `n` values and pushes the sequence in
push order; `BUILD_TUPLE` does the same producing a tuple. -/
theorem build_list_tuple_push_order (runC : RunC) (fuel : Nat) (vm : VM)
    (frame : Frame) (ip : Nat) (instr : Instr) (vs rest : List Value)
    (hi : frame.code_obj.instructions[ip]? = some instr)
    (hn : instr.arg = vs.length)
    (hs : frame.stack = vs.reverse ++ rest) :
    (instr.opname = "BUILD_LIST" →
      runFrameLoopAux runC (fuel + 1) vm frame ip =
        runFrameLoopAux runC fuel vm
          { frame with stack := Value.list vs :: rest, last_instruction := ip + 1 } (ip + 1)) ∧
    (instr.opname = "BUILD_TUPLE" →
      runFrameLoopAux runC (fuel + 1) vm frame ip =
        runFrameLoopAux runC fuel vm
          { frame with stack := Value.tuple vs :: rest, last_instruction := ip + 1 } (ip + 1)) := by
  have hrl : vs.reverse.length = instr.arg := by simp [hn]
  have htake : (vs.reverse ++ rest).take instr.arg = vs.reverse := List.take_left' hrl
  have hdrop : (vs.reverse ++ rest).drop instr.arg = rest := List.drop_left' hrl
  have hle : instr.arg ≤ (vs.reverse ++ rest).length := by
    simp [hn]
  constructor <;> intro h <;>
    simp [runFrameLoopAux, execInstr, hi, hs, h, advance, htake, hdrop, hle, hn,
          strStartsWith, charsPrefix, Nat.le_add_right]

/-- Witness for C6: building a list from the values `1, 2, 3` pushed in that
order yields `[1, 2, 3]`, and likewise for a tuple. -/
theorem build_list_tuple_push_order_witness :
    (runFrameLoopAux (runCode 0) 1 vm0
        (testFrame buildDemoCode [Value.int 3, Value.int 2, Value.int 1]) 0 =
      runFrameLoopAux (runCode 0) 0 vm0
        { testFrame buildDemoCode [Value.list [Value.int 1, Value.int 2, Value.int 3]] with
          last_instruction := 1 } 1) ∧
    (runFrameLoopAux (runCode 0) 1 vm0
        (testFrame buildTupleDemoCode [Value.int 3, Value.int 2, Value.int 1]) 0 =
      runFrameLoopAux (runCode 0) 0 vm0
        { testFrame buildTupleDemoCode [Value.tuple [Value.int 1, Value.int 2, Value.int 3]] with
          last_instruction := 1 } 1) := by
  constructor
  · exact (build_list_tuple_push_order (runCode 0) 0 vm0
      (testFrame buildDemoCode [Value.int 3, Value.int 2, Value.int 1]) 0
      (Instr.mk "BUILD_LIST" 3 "") [Value.int 1, Value.int 2, Value.int 3] []
      rfl rfl rfl).1 rfl
  · exact (build_list_tuple_push_order (runCode 0) 0 vm0
      (testFrame buildTupleDemoCode [Value.int 3, Value.int 2, Value.int 1]) 0
      (Instr.mk "BUILD_TUPLE" 3 "") [Value.int 1, Value.int 2, Value.int 3] []
      rfl rfl rfl).2 rfl

/-- C7: an instruction whose opcode is not among the recognised set — in
particular `FOR_ITER` — raises the unsupported-operation error instead of
executing, and likewise for an unrecognised binary-arithmetic variant and an
unrecognised comparator. -/
theorem unsupported_operations_raise :
    (∀ (runC : RunC) (fuel : Nat) (vm : VM) (frame : Frame) (ip : Nat) (instr : Instr),
      frame.code_obj.instructions[ip]? = some instr →
      instr.opname = "FOR_ITER" →
      runFrameLoopAux runC (fuel + 1) vm frame ip =
        some (vm, Except.error forIterError)) ∧
    (∀ (runC : RunC) (fuel : Nat) (vm : VM) (frame : Frame) (ip : Nat) (instr : Instr),
      frame.code_obj.instructions[ip]? = some instr →
      instr.opname ∉ handledOpnames →
      strStartsWith instr.opname "BINARY_" = false →
      runFrameLoopAux runC (fuel + 1) vm frame ip =
        some (vm, Except.error (VMError.notImplementedError
          ("Unsupported instruction: " ++ instr.opname)))) ∧
    (∀ (runC : RunC) (fuel : Nat) (vm : VM) (frame : Frame) (ip : Nat) (instr : Instr)
      (a b : Value) (rest : List Value),
      frame.code_obj.instructions[ip]? = some instr →
      strStartsWith instr.opname "BINARY_" = true →
      instr.opname ∉ ["BINARY_ADD", "BINARY_SUBTRACT", "BINARY_MULTIPLY", "BINARY_TRUE_DIVIDE"] →
      frame.stack = b :: a :: rest →
      runFrameLoopAux runC (fuel + 1) vm frame ip =
        some (vm, Except.error (VMError.notImplementedError
          ("Unsupported binary op: " ++ instr.opname)))) ∧
    (∀ (runC : RunC) (fuel : Nat) (vm : VM) (frame : Frame) (ip : Nat) (instr : Instr)
      (a b : Value) (rest : List Value),
      frame.code_obj.instructions[ip]? = some instr →
      instr.opname = "COMPARE_OP" →
      instr.argval ∉ ["==", "!=", "<", "<=", ">", ">="] →
      frame.stack = b :: a :: rest →
      runFrameLoopAux runC (fuel + 1) vm frame ip =
        some (vm, Except.error (VMError.notImplementedError
          ("COMPARE_OP " ++ instr.argval ++ " not implemented")))) := by
  refine ⟨?_, ?_, ?_, ?_⟩
  · intro runC fuel vm frame ip instr hi hop
    simp [runFrameLoopAux, execInstr, hi, hop, forIterError, strStartsWith, charsPrefix]
  · intro runC fuel vm frame ip instr hi hnotin hbin
    simp only [handledOpnames, List.mem_cons, List.not_mem_nil, or_false, not_or] at hnotin
    simp [runFrameLoopAux, execInstr, hi, hnotin, hbin]
  · intro runC fuel vm frame ip instr a b rest hi hbin hnotin hs
    have key : ∀ t : String, strStartsWith t "BINARY_" = false → instr.opname ≠ t := by
      intro t h ht
      rw [ht] at hbin
      rw [hbin] at h
      cases h
    simp only [List.mem_cons, List.not_mem_nil, or_false, not_or] at hnotin
    simp [runFrameLoopAux, execInstr, hi, hbin, hnotin, hs,
          key "CALL_FUNCTION" rfl, key "CALL_FUNCTION_KW" rfl, key "RESUME" rfl,
          key "CACHE" rfl, key "RETURN_CONST" rfl, key "KW_NAMES" rfl,
          key "MAKE_FUNCTION" rfl, key "LOAD_CONST" rfl, key "LOAD_FAST" rfl,
          key "STORE_FAST" rfl, key "LOAD_GLOBAL" rfl, key "STORE_GLOBAL" rfl,
          key "LOAD_DEREF" rfl, key "STORE_DEREF" rfl]
  · intro runC fuel vm frame ip instr a b rest hi hop hnotin hs
    simp only [List.mem_cons, List.not_mem_nil, or_false, not_or] at hnotin
    simp [runFrameLoopAux, execInstr, hi, hop, hs, vCompare, hnotin,
          strStartsWith, charsPrefix]

/-- Witness for C7: `FOR_ITER` raises the unsupported-operation error, and so
do the unrecognised opcode `UNARY_NEGATIVE`, the unrecognised arithmetic
variant `BINARY_MODULO`, and the unrecognised comparator `is`. -/
theorem unsupported_operations_raise_witness :
    (runFrameLoopAux (runCode 0) 1 vm0 (testFrame failCode []) 0 =
      some (vm0, Except.error forIterError)) ∧
    (runFrameLoopAux (runCode 0) 1 vm0 (testFrame bogusDemoCode []) 0 =
      some (vm0, Except.error
        (VMError.notImplementedError "Unsupported instruction: UNARY_NEGATIVE"))) ∧
    (runFrameLoopAux (runCode 0) 1 vm0 (testFrame binDemoCode [Value.int 2, Value.int 1]) 0 =
      some (vm0, Except.error
        (VMError.notImplementedError "Unsupported binary op: BINARY_MODULO"))) ∧
    (runFrameLoopAux (runCode 0) 1 vm0 (testFrame cmpDemoCode [Value.int 2, Value.int 1]) 0 =
      some (vm0, Except.error
        (VMError.notImplementedError "COMPARE_OP is not implemented"))) := by
  refine ⟨?_, ?_, ?_, ?_⟩
  · exact unsupported_operations_raise.1 (runCode 0) 0 vm0 (testFrame failCode []) 0
      (Instr.mk "FOR_ITER" 0 "") rfl rfl
  · exact unsupported_operations_raise.2.1 (runCode 0) 0 vm0 (testFrame bogusDemoCode []) 0
      (Instr.mk "UNARY_NEGATIVE" 0 "") rfl (by decide) rfl
  · exact unsupported_operations_raise.2.2.1 (runCode 0) 0 vm0
      (testFrame binDemoCode [Value.int 2, Value.int 1]) 0
      (Instr.mk "BINARY_MODULO" 0 "") (Value.int 1) (Value.int 2) [] rfl rfl (by decide) rfl
  · exact unsupported_operations_raise.2.2.2 (runCode 0) 0 vm0
      (testFrame cmpDemoCode [Value.int 2, Value.int 1]) 0
      (Instr.mk "COMPARE_OP" 0 "is") (Value.int 1) (Value.int 2) [] rfl rfl (by decide) rfl

/-- C8: `MAKE_FUNCTION` pops the code object, then the defaults tuple (or
uses an empty tuple when the stack is exhausted), then the closure binding
set (or empty when exhausted), and pushes a Function Value over the current
frame's global namespace whose `closure` field is `None` — the popped
closure value `cv` does not occur in the result. -/
theorem make_function_pop_order_and_closure_discard (runC : RunC) (fuel : Nat)
    (vm : VM) (frame : Frame) (ip : Nat) (instr : Instr) (c : CodeObj)
    (ds : List Value) (cv : Value) (rest : List Value)
    (hi : frame.code_obj.instructions[ip]? = some instr)
    (hop : instr.opname = "MAKE_FUNCTION") :
    (frame.stack = Value.code c :: Value.tuple ds :: cv :: rest →
      runFrameLoopAux runC (fuel + 1) vm frame ip =
        runFrameLoopAux runC fuel vm
          { frame with stack :=
              Value.func (FuncVal.mk c frame.globals ds Value.none) :: rest } (ip + 1)) ∧
    (frame.stack = [Value.code c, Value.tuple ds] →
      runFrameLoopAux runC (fuel + 1) vm frame ip =
        runFrameLoopAux runC fuel vm
          { frame with stack :=
              [Value.func (FuncVal.mk c frame.globals ds Value.none)] } (ip + 1)) ∧
    (frame.stack = [Value.code c] →
      runFrameLoopAux runC (fuel + 1) vm frame ip =
        runFrameLoopAux runC fuel vm
          { frame with stack :=
              [Value.func (FuncVal.mk c frame.globals [] Value.none)] } (ip + 1)) := by
  refine ⟨?_, ?_, ?_⟩ <;> intro hs <;>
    simp [runFrameLoopAux, execInstr, hi, hop, hs, strStartsWith, charsPrefix]

/-- Witness for C8: with a code object, a defaults tuple and a closure
binding set on the stack, `MAKE_FUNCTION` pushes a function over the frame's
globals with defaults `(7,)` and closure `None`; the popped closure set
`{"cell": 1}` is gone. -/
theorem make_function_pop_order_and_closure_discard_witness :
    runFrameLoopAux (runCode 0) 1 vm0
      (testFrame makeFunDemoCode
        [Value.code failCode, Value.tuple [Value.int 7],
         Value.dict [(Value.str "cell", Value.int 1)]]) 0 =
      runFrameLoopAux (runCode 0) 0 vm0
        { testFrame makeFunDemoCode
            [Value.func (FuncVal.mk failCode [] [Value.int 7] Value.none)] with
          stack := [Value.func (FuncVal.mk failCode [] [Value.int 7] Value.none)] } 1 := by
  exact (make_function_pop_order_and_closure_discard (runCode 0) 0 vm0
    (testFrame makeFunDemoCode
      [Value.code failCode, Value.tuple [Value.int 7],
       Value.dict [(Value.str "cell", Value.int 1)]]) 0
    (Instr.mk "MAKE_FUNCTION" 0 "") failCode [Value.int 7]
    (Value.dict [(Value.str "cell", Value.int 1)]) [] rfl rfl).1 rfl

/-- Identity outcomes satisfy the call-stack contract. -/
theorem framesInv_refl (vm : VM) (r : Except VMError Value)
    (hI : vm.frame = vm.frames.getLast?) : framesInv vm vm r :=
  ⟨⟨[], by simp⟩, fun _ _ => ⟨rfl, hI⟩, fun _ _ => hI⟩

theorem framesInv_err {vm vmc : VM} {e : VMError}
    (hpre : ∃ tail, vmc.frames = vm.frames ++ tail)
    (hfr : vmc.frame = vmc.frames.getLast?) :
    framesInv vm vmc (Except.error e) :=
  ⟨hpre, fun _ hv => Except.noConfusion hv, fun _ _ => hfr⟩

theorem framesInv_comp {vm vmc vm' : VM} {r : Except VMError Value}
    (h1 : vmc.frames = vm.frames)
    (h : framesInv vmc vm' r) : framesInv vm vm' r := by
  obtain ⟨⟨t, ht⟩, hok, herr⟩ := h
  refine ⟨⟨t, by rw [ht, h1]⟩, fun v hv => ?_, herr⟩
  obtain ⟨ha, hb⟩ := hok v hv
  exact ⟨by rw [ha, h1], by rw [hb, h1]⟩

theorem runFrameLoopAux_frames_inv (runC : RunC)
    (hC : ∀ (vm : VM) (code : CodeObj) (g l cc : Option Dict) (vm' : VM)
      (r : Except VMError Value),
      runC vm code g l cc = some (vm', r) → framesInv vm vm' r) :
    ∀ (fuel : Nat) (vm : VM) (frame : Frame) (ip : Nat) (vm' : VM)
      (r : Except VMError Value),
      vm.frame = vm.frames.getLast? →
      runFrameLoopAux runC fuel vm frame ip = some (vm', r) →
      framesInv vm vm' r := by
  intro fuel
  induction fuel with
  | zero =>
    intro vm frame ip vm' r hI h
    simp [runFrameLoopAux] at h
  | succ fuel ih =>
    intro vm frame ip vm' r hI h
    simp only [runFrameLoopAux] at h
    split at h
    · -- instructions exhausted
      simp only [Option.some.injEq, Prod.mk.injEq] at h
      obtain ⟨rfl, rfl⟩ := h
      exact framesInv_refl _ _ hI
    · -- some instr: the opname dispatch
      rename_i instr hinstr
      split at h
      · -- CALL_FUNCTION
        split at h
        · -- stack[n]? = none
          simp only [Option.some.injEq, Prod.mk.injEq] at h
          obtain ⟨rfl, rfl⟩ := h
          exact framesInv_refl _ _ hI
        · -- some funcV
          rename_i funcV hfn
          split at h
          · -- funcV is a Function Value
            rename_i f
            split at h
            · -- callFunctionLocals error
              simp only [Option.some.injEq, Prod.mk.injEq] at h
              obtain ⟨rfl, rfl⟩ := h
              exact framesInv_refl _ _ hI
            · -- callFunctionLocals ok
              rename_i locals hloc
              split at h
              · -- runC fuel exhausted
                exact Option.noConfusion h
              · -- runC error
                rename_i vm₁ e hrc
                simp only [Option.some.injEq, Prod.mk.injEq] at h
                obtain ⟨rfl, rfl⟩ := h
                have hc := hC _ _ _ _ _ _ _ hrc
                exact framesInv_err hc.1 (hc.2.2 e rfl)
              · -- runC ok, loop continues
                rename_i vm₁ v hrc
                have hc := hC _ _ _ _ _ _ _ hrc
                obtain ⟨hfe, hfr⟩ := hc.2.1 v rfl
                have hI' : vm₁.frame = vm₁.frames.getLast? := by rw [hfr, hfe]
                exact framesInv_comp hfe (ih _ _ _ _ _ hI' h)
          · -- funcV is not a Function Value
            simp only [Option.some.injEq, Prod.mk.injEq] at h
            obtain ⟨rfl, rfl⟩ := h
            exact framesInv_refl _ _ hI
      · -- not CALL_FUNCTION
        split at h
        · -- CALL_FUNCTION_KW
          split at h
          · -- empty stack
            simp only [Option.some.injEq, Prod.mk.injEq] at h
            obtain ⟨rfl, rfl⟩ := h
            exact framesInv_refl _ _ hI
          · -- kwNamesV :: s₁
            rename_i kwNamesV s₁
            split at h
            · -- s₁[total]? = none
              simp only [Option.some.injEq, Prod.mk.injEq] at h
              obtain ⟨rfl, rfl⟩ := h
              exact framesInv_refl _ _ hI
            · -- some funcV
              rename_i funcV hfn
              split at h
              · -- tupleStrings none
                simp only [Option.some.injEq, Prod.mk.injEq] at h
                obtain ⟨rfl, rfl⟩ := h
                exact framesInv_refl _ _ hI
              · -- some kwNames
                rename_i kwNames hnames
                split at h
                · -- funcV is a Function Value
                  rename_i f
                  split at h
                  · -- callFunctionKWLocals error
                    simp only [Option.some.injEq, Prod.mk.injEq] at h
                    obtain ⟨rfl, rfl⟩ := h
                    exact framesInv_refl _ _ hI
                  · -- callFunctionKWLocals ok
                    rename_i locals hloc
                    split at h
                    · exact Option.noConfusion h
                    · -- runC error
                      rename_i vm₁ e hrc
                      simp only [Option.some.injEq, Prod.mk.injEq] at h
                      obtain ⟨rfl, rfl⟩ := h
                      have hc := hC _ _ _ _ _ _ _ hrc
                      exact framesInv_err hc.1 (hc.2.2 e rfl)
                    · -- runC ok, loop continues
                      rename_i vm₁ v hrc
                      have hc := hC _ _ _ _ _ _ _ hrc
                      obtain ⟨hfe, hfr⟩ := hc.2.1 v rfl
                      have hI' : vm₁.frame = vm₁.frames.getLast? := by rw [hfr, hfe]
                      exact framesInv_comp hfe (ih _ _ _ _ _ hI' h)
                · -- funcV is not a Function Value
                  simp only [Option.some.injEq, Prod.mk.injEq] at h
                  obtain ⟨rfl, rfl⟩ := h
                  exact framesInv_refl _ _ hI
        · -- plain instruction through execInstr
          split at h
          · -- StepRes.next: loop continues, interpreter state unchanged
            exact ih _ _ _ _ _ hI h
          · -- StepRes.ret
            simp only [Option.some.injEq, Prod.mk.injEq] at h
            obtain ⟨rfl, rfl⟩ := h
            exact framesInv_refl _ _ hI
          · -- StepRes.err
            simp only [Option.some.injEq, Prod.mk.injEq] at h
            obtain ⟨rfl, rfl⟩ := h
            exact framesInv_refl _ _ hI

/-- C9: when `run_code` raises, the `frames.pop()` and current-frame
restoration after the `try` block are skipped, so the frame created for the
failing run is still on the call stack and the current-frame pointer still
refers to the innermost unpopped (failed) frame; only a normal return pops
the frame and restores the caller's frame as current. -/
theorem run_code_error_keeps_frame :
    ∀ (fuel : Nat) (vm : VM) (code : CodeObj) (g l cc : Option Dict) (vm' : VM)
      (r : Except VMError Value),
      runCode fuel vm code g l cc = some (vm', r) →
      (∀ e, r = Except.error e →
        (∃ tail, vm'.frames = vm.frames ++ runCodeFrame code g l cc :: tail) ∧
        runCodeFrame code g l cc ∈ vm'.frames ∧
        vm'.frame = vm'.frames.getLast?) ∧
      (∀ v, r = Except.ok v →
        vm'.frames = vm.frames ∧ vm'.frame = vm.frames.getLast?) := by
  intro fuel
  induction fuel with
  | zero =>
    intro vm code g l cc vm' r h
    exact Option.noConfusion h
  | succ fuel ih =>
    intro vm code g l cc vm' r h
    have hC : ∀ (vmA : VM) (codeA : CodeObj) (gA lA ccA : Option Dict) (vmA' : VM)
        (rA : Except VMError Value),
        runCode fuel vmA codeA gA lA ccA = some (vmA', rA) → framesInv vmA vmA' rA := by
      intro vmA codeA gA lA ccA vmA' rA h'
      have hmain := ih vmA codeA gA lA ccA vmA' rA h'
      refine ⟨?_, fun v hv => hmain.2 v hv, fun e he => (hmain.1 e he).2.2⟩
      cases rA with
      | ok v => exact ⟨[], by simp [(hmain.2 v rfl).1]⟩
      | error e =>
        obtain ⟨t, ht⟩ := (hmain.1 e rfl).1
        exact ⟨runCodeFrame codeA gA lA ccA :: t, ht⟩
    have hIpush : (pushFrame vm (runCodeFrame code g l cc)).frame =
        (pushFrame vm (runCodeFrame code g l cc)).frames.getLast? := by
      simp [pushFrame]
    simp only [runCode] at h
    split at h
    · exact Option.noConfusion h
    · -- the frame run raised: log and re-raise, frames untouched
      rename_i vm₂ e heq
      have linv := runFrameLoopAux_frames_inv (runCode fuel) hC fuel _ _ _ _ _ hIpush heq
      simp only [Option.some.injEq, Prod.mk.injEq] at h
      obtain ⟨rfl, rfl⟩ := h
      constructor
      · intro e' he'
        obtain ⟨t, ht⟩ := linv.1
        have hfr := linv.2.2 e rfl
        refine ⟨⟨t, ?_⟩, ?_, hfr⟩
        · rw [ht]
          simp [pushFrame]
        · rw [ht]
          simp [pushFrame]
      · intro v hv
        exact Except.noConfusion hv
    · -- the frame returned: pop the frame and restore the caller
      rename_i vm₂ v heq
      have linv := runFrameLoopAux_frames_inv (runCode fuel) hC fuel _ _ _ _ _ hIpush heq
      simp only [Option.some.injEq, Prod.mk.injEq] at h
      obtain ⟨rfl, rfl⟩ := h
      obtain ⟨hfe, _⟩ := linv.2.1 v rfl
      constructor
      · intro e he
        exact Except.noConfusion he
      · intro v' hv'
        constructor
        · simp [hfe, pushFrame]
        · simp [hfe, pushFrame]

/-- Witness for C9: after `run_code` fails on `failCode` from a fresh
interpreter, the failed frame is still on the call stack and still current. -/
theorem run_code_error_keeps_frame_witness :
    (∃ tail, vmAfterFail.frames =
      vm0.frames ++ runCodeFrame failCode Option.none Option.none Option.none :: tail) ∧
    runCodeFrame failCode Option.none Option.none Option.none ∈ vmAfterFail.frames ∧
    vmAfterFail.frame = vmAfterFail.frames.getLast? := by
  exact (run_code_error_keeps_frame 2 vm0 failCode Option.none Option.none Option.none
    vmAfterFail (Except.error forIterError) rfl).1 forIterError rfl

/-- C4 (amended): every `run_code` invocation level — not only the outermost
one — catches a fatal error raised while running its frame, logs one
`[TinyVM Exception]` diagnostic identifying the error, and re-raises the
same error unchanged; concretely, an error raised two call levels deep is
logged twice, once per enclosing `run_code`, and still propagates to the
caller. -/
theorem run_code_logs_and_reraises_each_level :
    (∀ (fuel : Nat) (vm : VM) (code : CodeObj) (g l cc : Option Dict)
      (vm₂ : VM) (e : VMError),
      runFrame fuel (pushFrame vm (runCodeFrame code g l cc)) (runCodeFrame code g l cc) =
        some (vm₂, Except.error e) →
      runCode (fuel + 1) vm code g l cc =
        some ({ vm₂ with log := vm₂.log ++ ["[TinyVM Exception]: " ++ excMsg e] },
              Except.error e)) ∧
    ((runCode 8 vm0 nestedOuterCode Option.none Option.none Option.none).map
        (fun p => (p.1.log, errMsg? p.2)) =
      some (["[TinyVM Exception]: FOR_ITER loop not implemented yet",
             "[TinyVM Exception]: FOR_ITER loop not implemented yet"],
            some "FOR_ITER loop not implemented yet")) := by
  constructor
  · intro fuel vm code g l cc vm₂ e h
    simp only [runFrame] at h
    simp [runCode, h]
  · rfl

/-- Witness for C4's amended claim: a one-level failing run logs exactly one
diagnostic at that level and re-raises the error. -/
theorem run_code_logs_and_reraises_each_level_witness :
    runCode 2 vm0 failCode Option.none Option.none Option.none =
      some (vmAfterFail, Except.error forIterError) := by
  exact run_code_logs_and_reraises_each_level.1 1 vm0 failCode
    Option.none Option.none Option.none (pushFrame vm0 failFrame) forIterError rfl

/-- Counterexample to C4 as stated: the claim says only the outermost
invocation point logs the diagnostic, so a depth-two failure would produce
exactly one log entry; running `nestedOuterCode` (whose callee raises the
unsupported-iteration error) produces two log entries, one per `run_code`
level. -/
theorem nested_error_logged_twice :
    (runCode 8 vm0 nestedOuterCode Option.none Option.none Option.none).map
      (fun p => p.1.log.length) = some 2 ∧ (2 : Nat) ≠ 1 :=
  ⟨rfl, by decide⟩

/-- C1 evidence: `BUILD_MAP 2` over the pushed pairs `1: 10` then `1: 20`
(key pushed before value, pairs in that source order) yields a mapping in
which the duplicate key `1` is bound to `10`, the FIRST-pushed value — the
pairs are popped from the top of the stack, so the first-pushed pair is
inserted last and silently overwrites the last-pushed one, contradicting the
required last-occurrence-wins semantics (`20`). -/
theorem build_map_duplicate_key_first_pushed_wins :
    runCode 8 vm0 dupKeyMapCode Option.none Option.none Option.none =
      some (vm0, Except.ok (Value.dict [(Value.int 1, Value.int 10)])) ∧
    vdictGet? [(Value.int 1, Value.int 10)] (Value.int 1) = some (Value.int 10) ∧
    some (Value.int 10) ≠ some (Value.int 20) := by
  refine ⟨rfl, rfl, by simp⟩

/-- C10: calling `f(x, y=1, z=2)` with no positional arguments and only the
keyword `z = 9` binds `z` by keyword, but the default-fill loop starts at
`filled_count = 1` and unconditionally rebinds positions 1 and 2, so `z`
ends bound to its declared default `2` and the supplied `9` is discarded. -/
theorem call_function_kw_default_overwrites_keyword :
    callFunctionKWLocals xyzCode [Value.int 1, Value.int 2] [] [("z", Value.int 9)] =
      Except.ok [("z", Value.int 2), ("y", Value.int 1)] ∧
    dictGet? [("z", Value.int 2), ("y", Value.int 1)] "z" = some (Value.int 2) ∧
    some (Value.int 2) ≠ some (Value.int 9) := by
  refine ⟨rfl, rfl, by simp⟩

/-- Counterexample to C2 as stated: the claim says defaults fill only
still-unbound parameters; calling `f(a, b=10, c=20)` with only the keyword
`c = 99` leaves the implementation rebinding the already-bound `c` to `20`,
while the specified fill-only-unbound behavior keeps `c = 99`, so the two
disagree. -/
theorem call_function_kw_rebinds_bound_param :
    callFunctionKWLocals abcCode [Value.int 10, Value.int 20] [] [("c", Value.int 99)] =
      Except.ok [("c", Value.int 20), ("b", Value.int 10)] ∧
    callFunctionKWLocalsSpec abcCode [Value.int 10, Value.int 20] [] [("c", Value.int 99)] =
      Except.ok [("c", Value.int 99), ("b", Value.int 10)] ∧
    callFunctionKWLocals abcCode [Value.int 10, Value.int 20] [] [("c", Value.int 99)] ≠
      callFunctionKWLocalsSpec abcCode [Value.int 10, Value.int 20] [] [("c", Value.int 99)] := by
  refine ⟨rfl, rfl, ?_⟩
  intro h
  rw [show callFunctionKWLocals abcCode [Value.int 10, Value.int 20] [] [("c", Value.int 99)] =
      Except.ok [("c", Value.int 20), ("b", Value.int 10)] from rfl,
    show callFunctionKWLocalsSpec abcCode [Value.int 10, Value.int 20] [] [("c", Value.int 99)] =
      Except.ok [("c", Value.int 99), ("b", Value.int 10)] from rfl] at h
  simp at h

/-- Lookup after a Python dict assignment. -/
theorem dictGet?_dictSet (d : Dict) (k k' : String) (v : Value) :
    dictGet? (dictSet d k v) k' = if k' = k then some v else dictGet? d k' := by
  induction d with
  | nil =>
    simp only [dictSet, dictGet?]
    by_cases h : k = k'
    · subst h; simp
    · simp [h, Ne.symm h]
  | cons p rest ih =>
    obtain ⟨k₁, v₁⟩ := p
    simp only [dictSet]
    by_cases h1 : k₁ = k
    · subst h1
      simp only [if_pos rfl, dictGet?]
      by_cases h2 : k₁ = k'
      · subst h2; simp
      · simp [h2, Ne.symm h2]
    · simp only [if_neg h1, dictGet?]
      by_cases h2 : k₁ = k'
      · subst h2
        simp [h1]
      · simp [h2, ih]

/-- Entries of a duplicate-free name list at distinct positions differ. -/
theorem nodup_getElem?_ne {l : List String} (h : l.Nodup) {i j : Nat} {a b : String}
    (hi : l[i]? = some a) (hj : l[j]? = some b) (hij : i ≠ j) : a ≠ b := by
  intro hab
  subst hab
  obtain ⟨hi', ha⟩ := List.getElem?_eq_some.mp hi
  obtain ⟨hj', hb⟩ := List.getElem?_eq_some.mp hj
  have hgl : l.get ⟨i, hi'⟩ = l.get ⟨j, hj'⟩ := by
    simpa using ha.trans hb.symm
  have := (List.Nodup.get_inj_iff h).mp hgl
  exact hij (by simpa using this)

/-- The positional-binding loop succeeds when enough parameter names exist,
and binds nothing outside the parameter names it consumed. -/
theorem bindLoop_untouched (argNames : List String) :
    ∀ (vs : List Value) (i : Nat) (ns : Dict), i + vs.length ≤ argNames.length →
    ∃ ns', bindLoop argNames vs i ns = Except.ok ns' ∧
      ∀ s, (∀ j nm, i ≤ j → j < i + vs.length → argNames[j]? = some nm → nm ≠ s) →
        dictGet? ns' s = dictGet? ns s := by
  intro vs
  induction vs with
  | nil =>
    intro i ns _
    exact ⟨ns, rfl, fun s _ => rfl⟩
  | cons v vs ih =>
    intro i ns h
    have hi : i < argNames.length := by
      simp only [List.length_cons] at h
      omega
    have hnm : argNames[i]? = some argNames[i] := List.getElem?_eq_getElem hi
    simp only [bindLoop, hnm]
    obtain ⟨ns', hrun, hlook⟩ := ih (i + 1) (dictSet ns argNames[i] v) (by
      simp only [List.length_cons] at h
      omega)
    refine ⟨ns', hrun, fun s hs => ?_⟩
    rw [hlook s fun j nm' hj1 hj2 hj3 => hs j nm' (by omega) (by simp; omega) hj3,
      dictGet?_dictSet]
    have hne : argNames[i] ≠ s := hs i argNames[i] (le_refl i) (by simp) hnm
    rw [if_neg fun hh => hne hh.symm]

/-- Pointwise description of the default-fill loop: iterating positions
`i, ..., i+k-1`, a parameter name at position `j` in that range ends bound to
the right-aligned default `defaults[j - (argcount - len(defaults))]` whenever
that index is in range (regardless of any earlier binding), and keeps its
prior binding otherwise; names at no position in the range are untouched. -/
theorem fillRange_lookup (argNames : List String) (argcount : Nat) (defaults : List Value)
    (hnd : argNames.Nodup) :
    ∀ (k i : Nat) (ns : Dict), (∀ j, i ≤ j → j < i + k → j < argNames.length) →
    ∃ ns', fillRange argNames argcount defaults k i ns = Except.ok ns' ∧
      (∀ s, (∀ j nm, i ≤ j → j < i + k → argNames[j]? = some nm → nm ≠ s) →
        dictGet? ns' s = dictGet? ns s) ∧
      (∀ j nm, i ≤ j → j < i + k → argNames[j]? = some nm →
        dictGet? ns' nm =
          (if 0 ≤ (j : Int) - ((argcount : Int) - (defaults.length : Int)) ∧
              (j : Int) - ((argcount : Int) - (defaults.length : Int)) < (defaults.length : Int)
           then defaults[((j : Int) - ((argcount : Int) - (defaults.length : Int))).toNat]?
           else dictGet? ns nm)) := by
  intro k
  induction k with
  | zero =>
    intro i ns _
    exact ⟨ns, rfl, fun s _ => rfl, fun j nm h1 h2 _ => absurd h2 (by omega)⟩
  | succ k ih =>
    intro i ns hacc
    have hacc' : ∀ j, i + 1 ≤ j → j < (i + 1) + k → j < argNames.length :=
      fun j h1 h2 => hacc j (by omega) (by omega)
    by_cases hcond : 0 ≤ (i : Int) - ((argcount : Int) - (defaults.length : Int)) ∧
        (i : Int) - ((argcount : Int) - (defaults.length : Int)) < (defaults.length : Int)
    · have hiL : i < argNames.length := hacc i (le_refl i) (by omega)
      have hnm : argNames[i]? = some argNames[i] := List.getElem?_eq_getElem hiL
      have hdL : ((i : Int) - ((argcount : Int) - (defaults.length : Int))).toNat <
          defaults.length := by omega
      have hdv : defaults[((i : Int) - ((argcount : Int) - (defaults.length : Int))).toNat]? =
          some (defaults[((i : Int) - ((argcount : Int) - (defaults.length : Int))).toNat]) :=
        List.getElem?_eq_getElem hdL
      obtain ⟨ns', hrun, hunt, hlook⟩ := ih (i + 1)
        (dictSet ns argNames[i]
          (defaults[((i : Int) - ((argcount : Int) - (defaults.length : Int))).toNat])) hacc'
      refine ⟨ns', ?_, ?_, ?_⟩
      · simp only [fillRange]
        rw [if_pos hcond]
        simp only [hnm, hdv]
        exact hrun
      · intro s hs
        rw [hunt s fun j nm hj1 hj2 hj3 => hs j nm (by omega) (by omega) hj3,
          dictGet?_dictSet]
        have hne : argNames[i] ≠ s := hs i argNames[i] (le_refl i) (by omega) hnm
        rw [if_neg fun hh => hne hh.symm]
      · intro j nm hj1 hj2 hj3
        by_cases hji : j = i
        · subst hji
          rw [hnm] at hj3
          have hnmj : nm = argNames[j] := by
            injection hj3 with hj3
            exact hj3.symm
          subst hnmj
          rw [if_pos hcond]
          have hs : ∀ j' nm', j + 1 ≤ j' → j' < (j + 1) + k → argNames[j']? = some nm' →
              nm' ≠ argNames[j] := by
            intro j' nm' h1 h2 h3
            exact nodup_getElem?_ne hnd h3 hnm (by omega)
          rw [hunt argNames[j] hs, dictGet?_dictSet, if_pos rfl, hdv]
        · have hlj := hlook j nm (by omega) (by omega) hj3
          rw [hlj]
          by_cases hcj : 0 ≤ (j : Int) - ((argcount : Int) - (defaults.length : Int)) ∧
              (j : Int) - ((argcount : Int) - (defaults.length : Int)) < (defaults.length : Int)
          · rw [if_pos hcj, if_pos hcj]
          · rw [if_neg hcj, if_neg hcj, dictGet?_dictSet]
            have hne : nm ≠ argNames[i] := nodup_getElem?_ne hnd hj3 hnm hji
            rw [if_neg hne]
    · obtain ⟨ns', hrun, hunt, hlook⟩ := ih (i + 1) ns hacc'
      refine ⟨ns', ?_, ?_, ?_⟩
      · simp only [fillRange]
        rw [if_neg hcond]
        exact hrun
      · intro s hs
        exact hunt s fun j nm hj1 hj2 hj3 => hs j nm (by omega) (by omega) hj3
      · intro j nm hj1 hj2 hj3
        by_cases hji : j = i
        · subst hji
          rw [if_neg hcond]
          have hiL : j < argNames.length := hacc j (le_refl j) (by omega)
          have hnm : argNames[j]? = some argNames[j] := List.getElem?_eq_getElem hiL
          have hnmj : nm = argNames[j] := by
            rw [hnm] at hj3
            injection hj3 with hj3
            exact hj3.symm
          subst hnmj
          have hs : ∀ j' nm', j + 1 ≤ j' → j' < (j + 1) + k → argNames[j']? = some nm' →
              nm' ≠ argNames[j] := by
            intro j' nm' h1 h2 h3
            exact nodup_getElem?_ne hnd h3 hnm (by omega)
          rw [hunt argNames[j] hs]
        · exact hlook j nm (by omega) (by omega) hj3

/-- C3: for a positional call with fewer arguments than parameters, each
remaining parameter at position `j` is bound to
`defaults[j - (argcount - len(defaults))]` when that index is in range and
remains unbound (`none`) otherwise; and a `LOAD_FAST` of a name absent from
the locals raises the unresolved-name error. -/
theorem call_function_defaults_and_unbound :
    (∀ (code : CodeObj) (defaults args : List Value),
      code.argcount ≤ code.varnames.length →
      (code.varnames.take code.argcount).Nodup →
      args.length < code.argcount →
      ∃ ns, callFunctionLocals code defaults args = Except.ok ns ∧
        ∀ j nm, args.length ≤ j → j < code.argcount →
          (code.varnames.take code.argcount)[j]? = some nm →
          dictGet? ns nm =
            (if 0 ≤ (j : Int) - ((code.argcount : Int) - (defaults.length : Int)) ∧
                (j : Int) - ((code.argcount : Int) - (defaults.length : Int)) <
                  (defaults.length : Int)
             then defaults[((j : Int) - ((code.argcount : Int) -
                    (defaults.length : Int))).toNat]?
             else Option.none)) ∧
    (∀ (runC : RunC) (fuel : Nat) (vm : VM) (frame : Frame) (ip : Nat) (instr : Instr)
      (name : String),
      frame.code_obj.instructions[ip]? = some instr →
      instr.opname = "LOAD_FAST" →
      frame.code_obj.varnames[instr.arg]? = some name →
      dictGet? frame.locals name = Option.none →
      runFrameLoopAux runC (fuel + 1) vm frame ip =
        some (vm, Except.error (VMError.nameError ("name '" ++ name ++ "' is not defined")))) := by
  constructor
  · intro code defaults args hlen hnd hfew
    have hANlen : (code.varnames.take code.argcount).length = code.argcount := by
      simp only [List.length_take]
      omega
    obtain ⟨ns₀, hbind, hunt0⟩ := bindLoop_untouched (code.varnames.take code.argcount)
      args 0 [] (by omega)
    have hcall : callFunctionLocals code defaults args =
        fillDefaults (code.varnames.take code.argcount) code.argcount defaults
          args.length ns₀ := by
      simp only [callFunctionLocals, hbind]
    obtain ⟨ns, hrun, hunt, hlook⟩ := fillRange_lookup (code.varnames.take code.argcount)
      code.argcount defaults hnd (code.argcount - args.length) args.length ns₀
      (by intro j h1 h2; omega)
    refine ⟨ns, ?_, ?_⟩
    · rw [hcall]
      simp only [fillDefaults]
      exact hrun
    · intro j nm hj1 hj2 hj3
      have hl := hlook j nm hj1 (by omega) hj3
      rw [hl]
      by_cases hc : 0 ≤ (j : Int) - ((code.argcount : Int) - (defaults.length : Int)) ∧
          (j : Int) - ((code.argcount : Int) - (defaults.length : Int)) < (defaults.length : Int)
      · rw [if_pos hc, if_pos hc]
      · rw [if_neg hc, if_neg hc]
        rw [hunt0 nm ?_]
        · simp [dictGet?]
        · intro j' nm' h1' h2' h3'
          exact nodup_getElem?_ne hnd h3' hj3 (by omega)
  · intro runC fuel vm frame ip instr name hi hop hvn hlocal
    simp [runFrameLoopAux, execInstr, hi, hop, hvn, hlocal, strStartsWith, charsPrefix]

/-- C2 (amended): a keyword-augmented call binds positional values to the
leading parameter names in order, then each keyword by name (stage
`kwBoundLocals`), and then fills the parameters at positions from the count
of already-bound names up to `argcount - 1` from the right-aligned defaults
— a fill that can rebind a keyword-bound trailing parameter rather than
touching only still-unbound ones; in particular `f(x, y=1)` called with one
positional argument and keyword `y = 2` binds `y` to `2`, not `1`. -/
theorem call_function_kw_fill_from_bound_count :
    (∀ (code : CodeObj) (defaults positional : List Value) (kwargs : List (String × Value))
      (ns2 : Dict),
      code.argcount ≤ code.varnames.length →
      (code.varnames.take code.argcount).Nodup →
      kwBoundLocals code positional kwargs = Except.ok ns2 →
      ∃ ns, callFunctionKWLocals code defaults positional kwargs = Except.ok ns ∧
        ∀ j nm, ns2.length ≤ j → j < code.argcount →
          (code.varnames.take code.argcount)[j]? = some nm →
          dictGet? ns nm =
            (if 0 ≤ (j : Int) - ((code.argcount : Int) - (defaults.length : Int)) ∧
                (j : Int) - ((code.argcount : Int) - (defaults.length : Int)) <
                  (defaults.length : Int)
             then defaults[((j : Int) - ((code.argcount : Int) -
                    (defaults.length : Int))).toNat]?
             else dictGet? ns2 nm)) ∧
    (callFunctionKWLocals fxyCode [Value.int 1] [Value.int 5] [("y", Value.int 2)] =
      Except.ok [("x", Value.int 5), ("y", Value.int 2)]) := by
  constructor
  · intro code defaults positional kwargs ns2 hlen hnd hkw
    have hANlen : (code.varnames.take code.argcount).length = code.argcount := by
      simp only [List.length_take]
      omega
    have hcall : callFunctionKWLocals code defaults positional kwargs =
        fillDefaults (code.varnames.take code.argcount) code.argcount defaults
          ns2.length ns2 := by
      simp only [callFunctionKWLocals, hkw]
    obtain ⟨ns, hrun, hunt, hlook⟩ := fillRange_lookup (code.varnames.take code.argcount)
      code.argcount defaults hnd (code.argcount - ns2.length) ns2.length ns2
      (by intro j h1 h2; omega)
    refine ⟨ns, ?_, ?_⟩
    · rw [hcall]
      simp only [fillDefaults]
      exact hrun
    · intro j nm hj1 hj2 hj3
      exact hlook j nm hj1 (by omega) hj3
  · rfl

/-- Witness for C3: `f(x, y=1)` called with the single positional argument
`7` binds `y` to its default `1`, and loading the unbound local `q` raises
the unresolved-name error. -/
theorem call_function_defaults_and_unbound_witness :
    (callFunctionLocals fxyCode [Value.int 1] [Value.int 7] =
      Except.ok [("x", Value.int 7), ("y", Value.int 1)]) ∧
    (dictGet? [("x", Value.int 7), ("y", Value.int 1)] "y" = some (Value.int 1)) ∧
    (runFrameLoopAux (runCode 0) 1 vm0 (testFrame loadFastDemoCode []) 0 =
      some (vm0, Except.error (VMError.nameError "name 'q' is not defined"))) := by
  obtain ⟨ns, hok, hlook⟩ := call_function_defaults_and_unbound.1 fxyCode
    [Value.int 1] [Value.int 7] (by decide) (by decide) (by decide)
  have hns : ns = [("x", Value.int 7), ("y", Value.int 1)] := by
    have h2 := hok.symm.trans (show callFunctionLocals fxyCode [Value.int 1] [Value.int 7] =
      Except.ok [("x", Value.int 7), ("y", Value.int 1)] from rfl)
    injection h2
  refine ⟨by rw [hok, hns], ?_, ?_⟩
  · have h := hlook 1 "y" (by decide) (by decide) rfl
    rw [hns] at h
    rw [h]
    rfl
  · exact call_function_defaults_and_unbound.2 (runCode 0) 0 vm0
      (testFrame loadFastDemoCode []) 0 (Instr.mk "LOAD_FAST" 0 "") "q" rfl rfl rfl rfl

/-- Witness for C2's amended claim: `f(a, b=10, c=20)` called with only the
keyword `c = 99` has bound-name count 1, and the fill starting there binds
`b` to its default `10` (and rebinds `c` to `20`). -/
theorem call_function_kw_fill_from_bound_count_witness :
    (kwBoundLocals abcCode [] [("c", Value.int 99)] = Except.ok [("c", Value.int 99)]) ∧
    (callFunctionKWLocals abcCode [Value.int 10, Value.int 20] [] [("c", Value.int 99)] =
      Except.ok [("c", Value.int 20), ("b", Value.int 10)]) ∧
    (dictGet? [("c", Value.int 20), ("b", Value.int 10)] "b" = some (Value.int 10)) := by
  obtain ⟨ns, hok, hlook⟩ := call_function_kw_fill_from_bound_count.1 abcCode
    [Value.int 10, Value.int 20] [] [("c", Value.int 99)] [("c", Value.int 99)]
    (by decide) (by decide) rfl
  have hns : ns = [("c", Value.int 20), ("b", Value.int 10)] := by
    have h2 := hok.symm.trans
      (show callFunctionKWLocals abcCode [Value.int 10, Value.int 20] [] [("c", Value.int 99)] =
        Except.ok [("c", Value.int 20), ("b", Value.int 10)] from rfl)
    injection h2
  refine ⟨rfl, by rw [hok, hns], ?_⟩
  · have h := hlook 1 "b" (by decide) (by decide) rfl
    rw [hns] at h
    rw [h]
    rfl
